import Mathlib

/-!
# Verification of the connect-four engine

A shallow embedding of the connect-four program (src/board.py, src/game.py,
src/search.py) together with proofs about the claims of its specification.

Modelling conventions:
* Python floats are modelled exactly.  Every numeric value flowing through the
  program is either `±inf` or a fraction `n / d` of small integers with `d > 0`
  (the heuristic score `(ps - es) / (ps + es)` and the exact scores `1`, `-1`,
  `0`).  For the fractions occurring in any run considered here, two values are
  equal (resp. ordered) as IEEE doubles iff they are equal (resp. ordered) as
  rationals, so comparisons are modelled on exact fractions with positive
  denominators, without normalisation (`Score`).
* numpy `int8` board cells are modelled by storing values reduced into
  `[-128, 127]` (`wrap8`); for the stones `-1`, `0`, `1` actually used by the
  game this is the identity.  Column heights are modelled as unbounded naturals,
  which is exact for every board whose height is below 128.
* Python objects compared by identity (the `Board` class defines no `__eq__`
  or `__hash__`) are modelled by integer handles: the search machines allocate
  node ids in creation order, and every dictionary or set keyed by a board in
  the source is keyed by the node id here.
* Python exceptions are modelled with `Except`; a `raise` before any mutation
  leaves the functional state untouched, mirroring the in-place code.
-/

/-- Exact model of the Python float values used by the program: `-math.inf`,
`math.inf`, and fractions `num / den` produced by integer-to-float division
with a positive denominator. -/
inductive Score where
  | ninf : Score
  | pinf : Score
  | frac (num den : Int) : Score
deriving DecidableEq, Repr

namespace Score

/-- Python `<` on these float values (denominators are positive). -/
def slt : Score → Score → Bool
  | ninf, ninf => false
  | ninf, _ => true
  | _, ninf => false
  | pinf, _ => false
  | _, pinf => true
  | frac n1 d1, frac n2 d2 => n1 * d2 < n2 * d1

/-- Python `==` on these float values. -/
def seq : Score → Score → Bool
  | ninf, ninf => true
  | pinf, pinf => true
  | frac n1 d1, frac n2 d2 => n1 * d2 == n2 * d1
  | _, _ => false

/-- Python `>` . -/
def sgt (a b : Score) : Bool := slt b a

/-- Python `<=` . -/
def sle (a b : Score) : Bool := slt a b || seq a b

/-- Python `>=` . -/
def sge (a b : Score) : Bool := sle b a

/-- The float `1.0`. -/
def one : Score := frac 1 1

/-- The float `-1.0`. -/
def negOne : Score := frac (-1) 1

/-- The float `0.0` (as returned by `return 0` in `board.evaluate`). -/
def zero : Score := frac 0 1

end Score

/-- Reduction of an integer into numpy's `int8` range, as performed when a
stone value is assigned into the `int8` grid (`self.stones[y, x] = stone`). -/
def wrap8 (z : Int) : Int := (z + 128) % 256 - 128

/-- `board.py` `Board.__init__`: width, height, the grid `stones` (row-major,
row 0 at the bottom, `stones[y][x]`), and the per-column fill heights `top`. -/
structure Board where
  width : Nat
  height : Nat
  stones : List (List Int)
  top : List Nat
deriving DecidableEq, Repr

/-- `Board(width, height)`: all-zero grid, all-zero tops. -/
def Board.new (width height : Nat) : Board :=
  ⟨width, height, List.replicate height (List.replicate width 0),
    List.replicate width 0⟩

/-- `Board.full`: `self.top[column] >= self.height`. -/
def Board.full (b : Board) (column : Nat) : Bool :=
  b.height ≤ b.top.getD column 0

/-- `Board.all_full`: `np.all(self.top >= self.height)`. -/
def Board.all_full (b : Board) : Bool :=
  (List.range b.width).all fun c => b.full c

/-- `Board.within_bounds(position)` with `position = (y, x)`. -/
def Board.within_bounds (b : Board) (y x : Int) : Bool :=
  0 ≤ x && x < (b.width : Int) && 0 ≤ y && y < (b.height : Int)

/-- The grid cell `stones[y][x]` for in-bounds `(y, x)` (out-of-bounds reads
never happen on the guarded paths modelled here and default to `0`). -/
def Board.cellAt (b : Board) (y x : Int) : Int :=
  (b.stones.getD y.toNat []).getD x.toNat 0

/-- Write `v` into cell `(y, x)` of the grid. -/
def setCell (g : List (List Int)) (y x : Nat) (v : Int) : List (List Int) :=
  g.set y ((g.getD y []).set x v)

/-- The two `IndexError`s raised by `Board.put`. -/
inductive PutErr where
  | invalidColumn : PutErr
  | columnFull : PutErr
deriving DecidableEq, Repr

/-- `Board.put(stone, column)`: reject a column outside `[0, width)`, then a
full column, otherwise place the stone at the column's current top and
increment the top.  The stone value itself is never validated. -/
def Board.put (b : Board) (stone : Int) (column : Int) : Except PutErr Board :=
  if column < 0 || (b.width : Int) ≤ column then .error .invalidColumn
  else
    let c := column.toNat
    if b.full c then .error .columnFull
    else
      let y := b.top.getD c 0
      .ok { b with
              stones := setCell b.stones y c (wrap8 stone),
              top := b.top.set c (y + 1) }

/-- The in-place view of `Board.put`: the (possibly unchanged) board plus the
error that was raised, if any.  A raise happens before any mutation, so on
error the board is returned untouched. -/
def Board.putInPlace (b : Board) (stone : Int) (column : Int) :
    Board × Option PutErr :=
  match b.put stone column with
  | .ok b' => (b', none)
  | .error e => (b, some e)

/-- `Board.copy`: an independent structural copy of grid and tops (the copy is
a *new Python object*, so it is not `==`-equal to the original, see
`BoardObj`). -/
def Board.copy (b : Board) : Board := ⟨b.width, b.height, b.stones, b.top⟩

/-- A Python `Board` *object*: its structural data plus its identity (`id()`),
modelled as an allocation handle.  The class defines neither `__eq__` nor
`__hash__`, so `==` and `hash` fall back to object identity. -/
structure BoardObj where
  data : Board
  oid : Nat
deriving DecidableEq, Repr

/-- Python `==` between two `Board` objects: default `object.__eq__`, i.e.
identity of the objects. -/
def BoardObj.pyEq (a b : BoardObj) : Bool := a.oid == b.oid

/-- Python `hash` of a `Board` object: default id-based hash, injective over
live objects; modelled by the handle itself. -/
def BoardObj.pyHash (a : BoardObj) : Nat := a.oid

/-- `Board.copy` at the object level: the structural data is copied into a
fresh object with a new identity. -/
def BoardObj.copyObj (a : BoardObj) (fresh : Nat) : BoardObj :=
  ⟨a.data.copy, fresh⟩

/-! ## Directions and win detection (`board.py`, duplicated in `game.py`) -/

/-- Modelled from the spec: the `directions` module is not among the source
files.  Positions are `(y, x)` with `y` growing upward (row 0 is the bottom),
and per the spec the four axes are diagonal-up (NE), horizontal (E),
diagonal-down (SE) and vertical (S, pointing down). -/
def dirNE : Int × Int := (1, 1)

/-- Modelled from the spec: the horizontal direction east. -/
def dirE : Int × Int := (0, 1)

/-- Modelled from the spec: the diagonal-down direction south-east. -/
def dirSE : Int × Int := (-1, 1)

/-- Modelled from the spec: the vertical direction south (downwards). -/
def dirS : Int × Int := (-1, 0)

/-- Negation of a direction (`-d` in the Python code). -/
def dneg (d : Int × Int) : Int × Int := (-d.1, -d.2)

/-- `N_CONNECT = 4`. -/
def N_CONNECT : Nat := 4

/-- One loop step of `stones_in_direction`: the next cell is in bounds and
holds a stone of `player`. -/
def stepOK (b : Board) (player : Int) (y x : Int) : Bool :=
  b.within_bounds y x && (b.cellAt y x == player)

/-- The loop of `stones_in_direction`: walk from `(y, x)` in direction `d`,
counting consecutive stones of `player`, for at most `fuel` steps. -/
def stonesGo (b : Board) (player : Int) (d : Int × Int) :
    Int → Int → Nat → Nat
  | _, _, 0 => 0
  | y, x, fuel + 1 =>
    let y' := y + d.1
    let x' := x + d.2
    if stepOK b player y' x' then 1 + stonesGo b player d y' x' fuel else 0

/-- `stones_in_direction(board, player, position, direction)`: the number of
consecutive `player` stones pointing into `(y, x)` from direction `d`, capped
at `N_CONNECT - 1 = 3`. -/
def stones_in_direction (b : Board) (player : Int) (y x : Int)
    (d : Int × Int) : Nat :=
  stonesGo b player d y x (N_CONNECT - 1)

/-- `max_stones_into(board, player, position)`: maximum over the four axes of
the stones pointing into the position (mirrored axes in both ways, vertical
only downwards), capped at `3`. -/
def max_stones_into (b : Board) (player : Int) (y x : Int) : Nat :=
  let s := fun d => stones_in_direction b player y x d
  let dangers :=
    max (max (s dirNE + s (dneg dirNE)) (s dirE + s (dneg dirE)))
      (max (s dirSE + s (dneg dirSE)) (s dirS))
  min dangers (N_CONNECT - 1)

/-- `winning_on(board, player, position)`: the position holds a `player` stone
and three more of its stones point into it along some axis. -/
def winning_on (b : Board) (player : Int) (y x : Int) : Bool :=
  if b.cellAt y x != player then false
  else max_stones_into b player y x == N_CONNECT - 1

/-! ## Static evaluation

`board.py` and `game.py` each define an `evaluate`; the two differ in exactly
one point: `board.py` returns `0` when `player_score + enemy_score == 0`,
whereas `game.py` divides unconditionally (`ZeroDivisionError` when the sum is
zero).  `search.py` imports the `board.py` one; `game.py`'s `search_tree`
uses the local one. -/

/-- The per-column loop shared by both `evaluate` functions: skip full
columns, look at the landing cell of each open column, return `1`/`-1` on an
immediate completion for the side on turn, otherwise accumulate both players'
totals.  Returns either the early result or the final totals. -/
def evalLoop (b : Board) (player enemy onTurn : Int) :
    List Nat → Int → Int → Sum Score (Int × Int)
  | [], ps, es => .inr (ps, es)
  | c :: cs, ps, es =>
    if b.full c then evalLoop b player enemy onTurn cs ps es
    else
      let y : Int := (b.top.getD c 0 : Nat)
      let x : Int := (c : Nat)
      let pStones := max_stones_into b player y x
      let eStones := max_stones_into b enemy y x
      if pStones == N_CONNECT - 1 && player == onTurn then .inl Score.one
      else if eStones == N_CONNECT - 1 && enemy == onTurn then .inl Score.negOne
      else evalLoop b player enemy onTurn cs (ps + pStones) (es + eStones)

/-- `board.py`'s `evaluate(board, player, on_turn)`: guarded against a zero
denominator (`return 0`), hence total. -/
def evaluate (b : Board) (player onTurn : Int) : Score :=
  match evalLoop b player (-player) onTurn (List.range b.width) 0 0 with
  | .inl r => r
  | .inr (ps, es) =>
    if ps + es == 0 then Score.zero else Score.frac (ps - es) (ps + es)

/-- `game.py`'s `evaluate(board, player, on_turn)`: identical loop but no
zero-denominator guard — `(ps - es) / (ps + es)` raises `ZeroDivisionError`
when both totals are zero. -/
def evaluateG (b : Board) (player onTurn : Int) : Except Unit Score :=
  match evalLoop b player (-player) onTurn (List.range b.width) 0 0 with
  | .inl r => .ok r
  | .inr (ps, es) =>
    if ps + es == 0 then .error () else .ok (Score.frac (ps - es) (ps + es))

/-! ## The plain minimax machine (`game.py`, `search_tree`) -/

/-- Association-list update: overwrite the value at an existing key in place,
append a new key at the end (a Python `dict` assignment). -/
def aset {α : Type} : List (Nat × α) → Nat → α → List (Nat × α)
  | [], k, v => [(k, v)]
  | (k', v') :: t, k, v =>
    if k' == k then (k, v) :: t else (k', v') :: aset t k v

/-- Set insertion (a Python `set.add`): a no-op when already present. -/
def sinsert (l : List Nat) (n : Nat) : List Nat :=
  if l.contains n then l else l ++ [n]

/-- The run-time failures either search can hit (all are Python exceptions
that would escape the function). -/
inductive RunErr where
  | indexError : RunErr
  | keyError : RunErr
  | valueError : RunErr
  | zeroDivision : RunErr
  | unboundBestMove : RunErr
  | putFailed : RunErr
deriving DecidableEq, Repr

/-- Turn an `Option` into an `Except` with the given failure. -/
def ofOpt {α : Type} (e : RunErr) : Option α → Except RunErr α
  | none => .error e
  | some a => .ok a

/-- The mutable state of `search_tree` (`game.py`).  Boards are Python objects
keyed by identity: `boards` is the allocation arena (the node id is the list
index), and every source dict/set keyed by a board is keyed by the id here.
`depth` is the loop variable that survives between iterations; the root has
id `0`. -/
structure StateG where
  boards : List Board
  nodeList : List (Nat × Nat × Int)
  evaluated : List Nat
  evaluation : List (Nat × Score)
  parentMap : List (Nat × Nat)
  depth : Nat
  bestMove : Option Int
deriving DecidableEq, Repr

/-- Initial state of `search_tree`: the work list holds the root at depth 0
with `changed_column = -1`. -/
def initG (root : Board) : StateG :=
  ⟨[root], [(0, 0, -1)], [], [], [], 0, none⟩

/-- The child-generation loop of `search_tree`'s expand step: for each
non-full column (ascending), copy the board, drop `on_turn`'s stone, record
the parent link and push the child at depth + 1. -/
def expandG (onTurn : Int) (d : Nat) (n : Nat) (board : Board) :
    List Nat → StateG → Except RunErr StateG
  | [], s => .ok s
  | c :: cs, s =>
    if board.full c then expandG onTurn d n board cs s
    else
      match board.copy.put onTurn (c : Int) with
      | .error _ => .error .putFailed
      | .ok child =>
        let cid := s.boards.length
        expandG onTurn d n board cs
          { s with
              boards := s.boards ++ [child],
              parentMap := aset s.parentMap cid n,
              nodeList := s.nodeList ++ [(cid, d + 1, (c : Int))] }

/-- One iteration of the `while` loop of `search_tree`. -/
def stepG (player : Int) (m : Nat) (s0 : StateG) : Except RunErr StateG :=
  let prev := s0.depth
  match s0.nodeList.getLast? with
  | none => .error .indexError
  | some (n, d, ch) =>
    let s := { s0 with depth := d }
    if prev > d then .ok { s with evaluated := sinsert s.evaluated n }
    else
      let onTurn := if d % 2 == 0 then player else -player
      if s.evaluated.contains n then
        match s.parentMap.lookup n, s.evaluation.lookup n with
        | some p, some evB =>
          match s.evaluation.lookup p with
          | some evP =>
            let s :=
              if (player == onTurn && evB.slt evP) ||
                  (player != onTurn && evB.sgt evP) then
                { s with
                    evaluation := aset s.evaluation p evB,
                    bestMove := if p == 0 then some ch else s.bestMove }
              else s
            .ok { s with nodeList := s.nodeList.dropLast }
          | none => .error .keyError
        | _, _ => .error .keyError
      else
        match s.boards.get? n with
        | none => .error .indexError
        | some board =>
          let leafDone : Option Score :=
            if ch != -1 then
              let y : Int := ((board.top.getD ch.toNat 0 : Nat) : Int) - 1
              if winning_on board player y ch then some Score.one
              else if winning_on board (-player) y ch then some Score.negOne
              else none
            else none
          match leafDone with
          | some v =>
            .ok { s with
                    evaluation := aset s.evaluation n v,
                    evaluated := sinsert s.evaluated n }
          | none =>
            if m ≤ d then
              match evaluateG board player onTurn with
              | .error _ => .error .zeroDivision
              | .ok v =>
                .ok { s with
                        evaluation := aset s.evaluation n v,
                        evaluated := sinsert s.evaluated n }
            else
              match s.boards.get? 0 with
              | none => .error .indexError
              | some rootBoard =>
                expandG onTurn d n board (List.range rootBoard.width)
                  { s with
                      evaluation :=
                        aset s.evaluation n
                          (if player == onTurn then Score.ninf else Score.pinf) }

/-- `search_tree(root_board, player)` with the ply limit `m` as a parameter
(the source fixes `MAX_DEPTH = 4`), run for at most `fuel` loop iterations;
`none` means the loop was still running when the fuel ran out. -/
def runG (player : Int) (m : Nat) : Nat → StateG → Except RunErr (Option (Score × Int))
  | 0, _ => .ok none
  | fuel + 1, s =>
    if s.evaluated.contains 0 then
      match s.evaluation.lookup 0, s.bestMove with
      | some v, some bm => .ok (some (v, bm))
      | some _, none => .error .unboundBestMove
      | none, _ => .error .keyError
    else
      match stepG player m s with
      | .error e => .error e
      | .ok s' => runG player m fuel s'

/-! ## The alpha-beta machine (`search.py`, class `SearchTree`) -/

/-- Association-list delete (`del d[k]`): `none` when the key is absent (a
Python `KeyError`). -/
def adelOpt {α : Type} : List (Nat × α) → Nat → Option (List (Nat × α))
  | [], _ => none
  | (k', v') :: t, k =>
    if k' == k then some t else (adelOpt t k).map fun t' => (k', v') :: t'

/-- `list.index(x)` (first occurrence; `none` models `ValueError`). -/
def idxOfGo : List Nat → Nat → Nat → Option Nat
  | [], _, _ => none
  | a :: t, k, i => if a == k then some i else idxOfGo t k (i + 1)

/-- The mutable attributes of a `SearchTree` object (`__init__` plus the
attributes first assigned inside `get_next`: `previous_depth`,
`changed_column`, `on_turn`).  The work list is three parallel stacks; the
root has node id `0`. -/
structure StateS where
  boards : List Board
  wNodes : List Nat
  wDepths : List Nat
  wChanged : List Int
  evaluated : List Nat
  evaluation : List (Nat × Score)
  parentMap : List (Nat × Nat)
  siblingsMap : List (Nat × List Nat)
  depth : Nat
  prevDepth : Nat
  alpha : Score
  beta : Score
  justPruned : Bool
  changed : Int
  onTurn : Int
  bestMove : Option Int
deriving DecidableEq, Repr

/-- `SearchTree.__init__(root_board, player)`. -/
def initS (root : Board) (player : Int) : StateS :=
  { boards := [root], wNodes := [0], wDepths := [0], wChanged := [-1],
    evaluated := [], evaluation := [], parentMap := [],
    siblingsMap := [(0, [0])], depth := 0, prevDepth := 0,
    alpha := Score.ninf, beta := Score.pinf, justPruned := false,
    changed := -1, onTurn := player, bestMove := none }

/-- `INIT_NODE(d)`: `-inf` for a maximizing depth, `+inf` for a minimizing
one. -/
def INIT_NODE (d : Nat) : Score :=
  if d % 2 == 0 then Score.ninf else Score.pinf

/-- `SearchTree.ancestors(board)`: the board itself, its parents up to (and
including) the root — the current root path. -/
def ancestorsGo (pm : List (Nat × Nat)) : Nat → Nat → List Nat
  | 0, _ => []
  | fuel + 1, n =>
    match pm.lookup n with
    | some p => n :: ancestorsGo pm fuel p
    | none => []

/-- The ancestors of node `n` (ends with the root id `0`). -/
def ancestorsS (s : StateS) (n : Nat) : List Nat :=
  ancestorsGo s.parentMap (s.boards.length + 1) n ++ [0]

/-- The inner accumulation shared by `collect_alpha` / `collect_beta`: fold
the evaluations of the non-ancestor siblings at one depth, skipping nodes
without a useful evaluation.  `keep` is `max` for alpha, `min` for beta. -/
def collectSibs (ev : List (Nat × Score)) (anc : List Nat) (d' : Nat)
    (keep : Score → Score → Score) (sibs : List Nat) (acc : Score) : Score :=
  sibs.foldl
    (fun a sib =>
      if anc.contains sib then a
      else
        match ev.lookup sib with
        | none => a
        | some v => if v.seq (INIT_NODE d') then a else keep a v)
    acc

/-- The per-depth loop of `collect_alpha` / `collect_beta` (a missing
`siblings[depth]` entry is a `KeyError`). -/
def collectFold (s : StateS) (anc : List Nat)
    (keep : Score → Score → Score) : List Nat → Score → Except RunErr Score
  | [], acc => .ok acc
  | d' :: ds, acc =>
    match s.siblingsMap.lookup d' with
    | none => .error .keyError
    | some sibs =>
      collectFold s anc keep ds (collectSibs s.evaluation anc d' keep sibs acc)

/-- Python `max(a, v)` on floats. -/
def smax (a v : Score) : Score := if a.slt v then v else a

/-- Python `min(a, v)` on floats. -/
def smin (a v : Score) : Score := if v.slt a then v else a

/-- `SearchTree.collect_alpha_beta(board)`: recompute `alpha` (at a
maximizing depth, from the odd levels above) or `beta` (at a minimizing
depth, from the even levels above). -/
def collectAB (s : StateS) (n : Nat) : Except RunErr StateS :=
  let anc := ancestorsS s n
  if s.depth % 2 == 0 then
    match collectFold s anc smax
        ((List.range s.depth).filter fun k => k % 2 == 1) Score.ninf with
    | .error e => .error e
    | .ok a => .ok { s with alpha := a }
  else
    match collectFold s anc smin
        ((List.range s.depth).filter fun k => k % 2 == 0) Score.pinf with
    | .error e => .error e
    | .ok v => .ok { s with beta := v }

/-- `SearchTree.all_children_done()`: jumped up one level without a prune, or
two levels right after one. -/
def allChildrenDone (s : StateS) : Bool :=
  (!s.justPruned && (s.depth : Int) == (s.prevDepth : Int) - 1) ||
    (s.justPruned && (s.depth : Int) == (s.prevDepth : Int) - 2)

/-- `SearchTree.all_children_pruned(board)`: all children done but the node
still holds its initialisation value (short-circuit: the evaluation is only
read when the first conjunct holds). -/
def allChildrenPruned (s : StateS) (n : Nat) : Except RunErr Bool :=
  if allChildrenDone s then
    match s.evaluation.lookup n with
    | none => .error .keyError
    | some v => .ok (v.seq (INIT_NODE s.depth))
  else .ok false

/-- `SearchTree.prune_last()`: pop the top of the three work stacks. -/
def pruneLast (s : StateS) : StateS :=
  { s with wNodes := s.wNodes.dropLast, wDepths := s.wDepths.dropLast,
           wChanged := s.wChanged.dropLast }

/-- `SearchTree.prune(board)`: truncate the work stacks from the first
occurrence of the node on (the node and everything pushed after it). -/
def pruneFrom (s : StateS) (p : Nat) : Except RunErr StateS :=
  match idxOfGo s.wNodes p 0 with
  | none => .error .valueError
  | some i =>
    .ok { s with wNodes := s.wNodes.take i, wDepths := s.wDepths.take i,
                 wChanged := s.wChanged.take i }

/-- `SearchTree.clean_siblings()`: drop the sibling list one level below, and
two levels below when present. -/
def cleanSiblings (s : StateS) : Except RunErr StateS :=
  match adelOpt s.siblingsMap (s.depth + 1) with
  | none => .error .keyError
  | some m1 =>
    let m2 := match adelOpt m1 (s.depth + 2) with
      | some m2 => m2
      | none => m1
    .ok { s with siblingsMap := m2 }

/-- `SearchTree.prunable(board)`: at a maximizing depth the evaluation is at
most `alpha`, at a minimizing depth at least `beta`. -/
def prunableS (s : StateS) (n : Nat) : Except RunErr Bool :=
  match s.evaluation.lookup n with
  | none => .error .keyError
  | some v =>
    .ok (if s.depth % 2 == 0 then v.sle s.alpha else v.sge s.beta)

/-- The column strings of `Board.__repr__`, structurally: for each column the
values of its non-empty cells, bottom-up. -/
def reprCols (b : Board) : List (List Int) :=
  (List.range b.width).map fun x =>
    ((List.range b.height).map fun y => b.cellAt (y : Int) (x : Int)).filter
      fun v => v != 0

/-- Whether `repr(board)` equals the literal `"(ooox,,,x,xx,,)"` hard-coded in
`SearchTree.search` (a debugging leftover): exactly 7 columns whose non-empty
cells read, bottom-up, `o o o x | | | x | x x | |`. -/
def reprMatchesDebug (b : Board) : Bool :=
  b.width == 7 && reprCols b == [[-1, -1, -1, 1], [], [], [1], [1, 1], [], []]

/-- `SearchTree.is_leaf(board)` together with its side effects: a winning
move fixes the evaluation at `±1` and marks the node evaluated. -/
def isLeafS (player : Int) (s : StateS) (n : Nat) (board : Board) :
    StateS × Bool :=
  if n == 0 then (s, false)
  else
    let y : Int := ((board.top.getD s.changed.toNat 0 : Nat) : Int) - 1
    if winning_on board player y s.changed then
      ({ s with evaluation := aset s.evaluation n Score.one,
                evaluated := sinsert s.evaluated n }, true)
    else if winning_on board (-player) y s.changed then
      ({ s with evaluation := aset s.evaluation n Score.negOne,
                evaluated := sinsert s.evaluated n }, true)
    else (s, false)

/-- `SearchTree.update_parent` (via `update_max` / `update_min`): overwrite
the parent when the child strictly improves it.  `update_min` reports an
overwrite even when none happened (the `return True` on its fall-through
path), exactly as in the source. -/
def updateParentS (s : StateS) (n p : Nat) :
    Except RunErr (StateS × Bool) :=
  match s.evaluation.lookup n, s.evaluation.lookup p with
  | some evB, some evP =>
    if s.depth % 2 == 0 then
      if evB.slt evP then
        .ok ({ s with evaluation := aset s.evaluation p evB }, true)
      else .ok (s, false)
    else
      if evB.sgt evP then
        .ok ({ s with evaluation := aset s.evaluation p evB }, true)
      else .ok (s, true)
  | _, _ => .error .keyError

/-- The child-generation loop of `SearchTree.expand`. -/
def expandGoS (onTurn : Int) (d : Nat) (n : Nat) (board : Board) :
    List Nat → StateS → Except RunErr StateS
  | [], s => .ok s
  | c :: cs, s =>
    if board.full c then expandGoS onTurn d n board cs s
    else
      match board.copy.put onTurn (c : Int) with
      | .error _ => .error .putFailed
      | .ok child =>
        let cid := s.boards.length
        let sibs := (s.siblingsMap.lookup (d + 1)).getD []
        expandGoS onTurn d n board cs
          { s with
              boards := s.boards ++ [child],
              parentMap := aset s.parentMap cid n,
              siblingsMap := aset s.siblingsMap (d + 1) (sibs ++ [cid]),
              wNodes := s.wNodes ++ [cid],
              wDepths := s.wDepths ++ [d + 1],
              wChanged := s.wChanged ++ [(c : Int)] }

/-- `SearchTree.expand(board)`: reset the sibling list one level below, then
push every child of a non-full column. -/
def expandS (s : StateS) (n : Nat) (board : Board) : Except RunErr StateS :=
  let s1 := { s with siblingsMap := aset s.siblingsMap (s.depth + 1) [] }
  match s1.boards.get? 0 with
  | none => .error .indexError
  | some rootBoard =>
    expandGoS s.onTurn s.depth n board (List.range rootBoard.width) s1

/-- `SearchTree.get_next()`: save the previous depth, peek the top of the
work stacks, set depth / changed column / side on turn, recompute a bound
when the depth changed, skip (and recurse past) a node whose children were
all pruned, mark a node whose children are done as evaluated, and clean up
sibling lists when moving up.  The fuel dominates the recursion depth (each
recursive call first pops one work-list entry). -/
def getNextGo (player : Int) : Nat → StateS → Except RunErr (StateS × Nat)
  | 0, _ => .error .indexError
  | fuel + 1, s0 =>
    let prev := s0.depth
    match s0.wNodes.getLast?, s0.wDepths.getLast?, s0.wChanged.getLast? with
    | some n, some d, some ch =>
      let s := { s0 with
                   prevDepth := prev, depth := d, changed := ch,
                   onTurn := if d % 2 == 0 then player else -player }
      let collected : Except RunErr StateS :=
        if d ≠ prev then collectAB s n else .ok s
      match collected with
      | .error e => .error e
      | .ok s1 =>
        match allChildrenPruned s1 n with
        | .error e => .error e
        | .ok true =>
          getNextGo player fuel { pruneLast s1 with justPruned := false }
        | .ok false =>
          let s2 :=
            if allChildrenDone s1 then
              { s1 with evaluated := sinsert s1.evaluated n }
            else s1
          if d < prev then
            match cleanSiblings s2 with
            | .error e => .error e
            | .ok s3 => .ok (s3, n)
          else .ok (s2, n)
    | _, _, _ => .error .indexError

/-- `get_next` with enough fuel for its recursion (each recursive call
shortens the work list by one entry first). -/
def getNextS (player : Int) (s : StateS) : Except RunErr (StateS × Nat) :=
  getNextGo player (s.wNodes.length + 1) s

/-- One iteration of the `while` loop of `SearchTree.search`, including the
loop condition that is evaluated right after `get_next`: `inl` is the
function's return value `(evaluation[root], best_move)`. -/
def stepS (player : Int) (m : Nat) (st : StateS) :
    Except RunErr (Sum (Score × Int) StateS) :=
  match getNextS player st with
  | .error e => .error e
  | .ok (s, n) =>
    if s.evaluated.contains 0 then
      match s.evaluation.lookup 0 with
      | none => .error .keyError
      | some v =>
        match s.bestMove with
        | some bm => .ok (.inl (v, bm))
        | none => .error .unboundBestMove
    else if ! s.evaluated.contains n then
      match s.boards.get? n with
      | none => .error .indexError
      | some board =>
        let (s1, leaf) := isLeafS player s n board
        if leaf then .ok (.inr s1)
        else if m ≤ s1.depth then
          let v := evaluate board player s1.onTurn
          .ok (.inr { s1 with
                        evaluation := aset s1.evaluation n v,
                        evaluated := sinsert s1.evaluated n })
        else
          let s2 := { s1 with
                        evaluation :=
                          aset s1.evaluation n (INIT_NODE s1.depth) }
          match expandS s2 n board with
          | .error e => .error e
          | .ok s3 => .ok (.inr s3)
    else
      let s1 := { s with justPruned := false }
      match prunableS s1 n with
      | .error e => .error e
      | .ok true =>
        match s1.boards.get? n with
        | none => .error .indexError
        | some board =>
          let debugHit : Except RunErr Bool :=
            if reprMatchesDebug board then .ok true
            else
              match s1.parentMap.lookup n with
              | none => .error .keyError
              | some p =>
                match s1.boards.get? p with
                | none => .error .indexError
                | some pBoard => .ok (reprMatchesDebug pBoard)
          match debugHit with
          | .error e => .error e
          | .ok hit =>
            let afterDebug : Except RunErr StateS :=
              if hit then collectAB s1 n else .ok s1
            match afterDebug with
            | .error e => .error e
            | .ok s2 =>
              match s2.parentMap.lookup n with
              | none => .error .keyError
              | some p =>
                match pruneFrom s2 p with
                | .error e => .error e
                | .ok s3 => .ok (.inr { s3 with justPruned := true })
      | .ok false =>
        match s1.parentMap.lookup n with
        | none => .error .keyError
        | some p =>
          match updateParentS s1 n p with
          | .error e => .error e
          | .ok (s2, overwritten) =>
            let s3 :=
              if overwritten && p == 0 then
                { s2 with bestMove := some s2.changed }
              else s2
            .ok (.inr (pruneLast s3))

/-- `SearchTree(root_board, player).search()` with the ply limit `m` as a
parameter (the source fixes `MAX_DEPTH = 5`), run for at most `fuel` loop
iterations; `none` means the loop was still running when the fuel ran out. -/
def runS (player : Int) (m : Nat) : Nat → StateS → Except RunErr (Option (Score × Int))
  | 0, _ => .ok none
  | fuel + 1, s =>
    match stepS player m s with
    | .error e => .error e
    | .ok (.inl r) => .ok (some r)
    | .ok (.inr s') => runS player m fuel s'

/-! ## Specification-side predicates for win detection (claim C5) -/

/-- Four consecutive cells from `(y, x)` along direction `d` are in bounds
and all hold a stone of `player`. -/
def hasRun (b : Board) (player : Int) (y x : Int) (d : Int × Int) : Bool :=
  stepOK b player y x && stepOK b player (y + d.1) (x + d.2) &&
    stepOK b player (y + 2 * d.1) (x + 2 * d.2) &&
    stepOK b player (y + 3 * d.1) (x + 3 * d.2)

/-- Some run of 4 consecutive `player` stones along the axis of `d` contains
the position `(y, x)`. -/
def fourThrough (b : Board) (player : Int) (y x : Int) (d : Int × Int) : Bool :=
  hasRun b player y x d || hasRun b player (y - d.1) (x - d.2) d ||
    hasRun b player (y - 2 * d.1) (x - 2 * d.2) d ||
    hasRun b player (y - 3 * d.1) (x - 3 * d.2) d

/-- The claim's reading of `winningAt`: at least 4 consecutive same-player
stones lie along one of the four axes and include the position. -/
def claimWin (b : Board) (player : Int) (y x : Int) : Bool :=
  fourThrough b player y x dirNE || fourThrough b player y x dirE ||
    fourThrough b player y x dirSE || fourThrough b player y x dirS

/-- What `winning_on` actually detects: a 4-run through the position along
the horizontal or either diagonal axis, or a *downward* vertical 4-run
starting at the position (the position being the topmost stone of the run). -/
def amendedWin (b : Board) (player : Int) (y x : Int) : Bool :=
  fourThrough b player y x dirNE || fourThrough b player y x dirE ||
    fourThrough b player y x dirSE || hasRun b player y x dirS

/-- The count of leading `true`s among three flags — the value of the
`stones_in_direction` loop as a function of its three step tests. -/
def cnt3 : Bool → Bool → Bool → Nat
  | false, _, _ => 0
  | true, false, _ => 1
  | true, true, false => 2
  | true, true, true => 3

/-! ## Concrete inputs used by the claims -/

/-- A completely full 1×1 board (used for claim C2). -/
def fullB11 : Board := { width := 1, height := 1, stones := [[1]], top := [1] }

/-- A single column of four `1`-stones (used for claim C5's counterexample). -/
def colB14 : Board :=
  { width := 1, height := 4, stones := [[1], [1], [1], [1]], top := [4] }

/-- The state `SearchTree.search` loops on forever when the root board is
completely full: the root was expanded once (evaluation `-inf`, an empty
sibling list below the root), no child exists, and every later iteration
reproduces this state exactly. -/
def loopStateS (b : Board) (player : Int) : StateS :=
  { initS b player with
      evaluation := [(0, Score.ninf)], siblingsMap := [(0, [0]), (1, [])] }

/-- The corresponding looping state of `search_tree` on a full root board. -/
def loopStateG (b : Board) : StateG :=
  { initG b with evaluation := [(0, Score.ninf)] }

/-! ## Theorems -/

/-- C9: a drop into an out-of-range column fails with the out-of-range
`IndexError` (`InvalidColumn`), a drop into a full in-range column fails with
the column-full `IndexError` (`ColumnFull`); both raise before any mutation,
so the board is returned unchanged by the in-place view. -/
theorem c9_drop_fail (b : Board) (stone c : Int) :
    (c < 0 ∨ (b.width : Int) ≤ c →
      b.putInPlace stone c = (b, some .invalidColumn)) ∧
    (0 ≤ c → c < (b.width : Int) → b.full c.toNat = true →
      b.putInPlace stone c = (b, some .columnFull)) := by
  constructor
  · intro h
    have : (c < 0 || (b.width : Int) ≤ c) = true := by
      simp only [Bool.or_eq_true, decide_eq_true_eq]
      omega
    simp [Board.putInPlace, Board.put, this]
  · intro h0 hw hfull
    have : ¬(c < 0 || (b.width : Int) ≤ c) = true := by
      simp only [Bool.or_eq_true, decide_eq_true_eq]
      omega
    simp [Board.putInPlace, Board.put, this, hfull]

/-- Witness for C9: column `5` is out of range on a 2×2 board; column `0` of
the full 1×1 board is full. -/
theorem c9_drop_fail_witness :
    (Board.new 2 2).putInPlace 1 5 = (Board.new 2 2, some .invalidColumn) ∧
    fullB11.putInPlace 1 0 = (fullB11, some .columnFull) :=
  ⟨(c9_drop_fail (Board.new 2 2) 1 5).1 (by decide),
   (c9_drop_fail fullB11 1 0).2 (by decide) (by decide) (by decide)⟩

/-- C7 counterexample: `Board` defines no structural equality — a clone has
identical cell contents and heights but compares *unequal* to the original
(Python falls back to object identity). -/
theorem c7_counterexample :
    (BoardObj.copyObj ⟨Board.new 7 6, 0⟩ 1).pyEq ⟨Board.new 7 6, 0⟩ = false ∧
    (BoardObj.copyObj ⟨Board.new 7 6, 0⟩ 1).data = (⟨Board.new 7 6, 0⟩ : BoardObj).data := by
  constructor
  · rfl
  · rfl

/-- C7 (amended): `Board` equality and hashing are *object identity*, not
structure: `clone()` copies the grid and the heights verbatim, yet the clone
(a fresh object) is not `==`-equal to, and hashes differently from, the
original; two board objects are `==`-equal iff they are the same object. -/
theorem c7_identity_semantics (a : BoardObj) (fresh : Nat)
    (hf : fresh ≠ a.oid) :
    (a.copyObj fresh).pyEq a = false ∧
    (a.copyObj fresh).data = a.data ∧
    (a.copyObj fresh).pyHash ≠ a.pyHash ∧
    (∀ b : BoardObj, (a.pyEq b = true ↔ a.oid = b.oid)) := by
  refine ⟨?_, ?_, ?_, ?_⟩
  · simp [BoardObj.copyObj, BoardObj.pyEq, hf]
  · rfl
  · simpa [BoardObj.copyObj, BoardObj.pyHash] using hf
  · intro b
    simp [BoardObj.pyEq]

/-- Witness for C7 at a concrete object and a concrete fresh id. -/
theorem c7_identity_semantics_witness :
    (BoardObj.copyObj ⟨Board.new 1 1, 3⟩ 7).pyEq ⟨Board.new 1 1, 3⟩ = false ∧
    (BoardObj.copyObj ⟨Board.new 1 1, 3⟩ 7).data = (⟨Board.new 1 1, 3⟩ : BoardObj).data ∧
    (BoardObj.copyObj ⟨Board.new 1 1, 3⟩ 7).pyHash ≠ (⟨Board.new 1 1, 3⟩ : BoardObj).pyHash ∧
    (∀ b : BoardObj, ((⟨Board.new 1 1, 3⟩ : BoardObj).pyEq b = true ↔ 3 = b.oid)) :=
  c7_identity_semantics ⟨Board.new 1 1, 3⟩ 7 (by decide)

/-- C6: on the empty default board (no immediate completion anywhere, both
run totals zero) the `game.py` copy of `evaluate` raises `ZeroDivisionError`,
while the guarded `board.py` copy returns `0` as the claim describes. -/
theorem c6_zero_division :
    evaluateG (Board.new 7 6) 1 1 = .error () ∧
    evaluate (Board.new 7 6) 1 1 = Score.zero := by
  constructor
  · rfl
  · rfl

/-- Helper: expanding over columns that are all full creates no children. -/
theorem expandGoS_all_full (onTurn : Int) (d n : Nat) (board : Board)
    (cols : List Nat) (s : StateS) (h : ∀ c ∈ cols, board.full c = true) :
    expandGoS onTurn d n board cols s = .ok s := by
  induction cols with
  | nil => rfl
  | cons c cs ih =>
    simp only [expandGoS, h c (by simp)]
    exact ih fun c' hc' => h c' (by simp [hc'])

/-- Helper: the same for `search_tree`'s expansion loop. -/
theorem expandG_all_full (onTurn : Int) (d n : Nat) (board : Board)
    (cols : List Nat) (s : StateG) (h : ∀ c ∈ cols, board.full c = true) :
    expandG onTurn d n board cols s = .ok s := by
  induction cols with
  | nil => rfl
  | cons c cs ih =>
    simp only [expandG, h c (by simp)]
    exact ih fun c' hc' => h c' (by simp [hc'])

/-- Helper: every column of an all-full board is full. -/
theorem all_full_every (b : Board) (hfull : b.all_full = true) :
    ∀ c ∈ List.range b.width, b.full c = true := by
  simpa [Board.all_full, List.all_eq_true] using hfull

/-- Helper: on an all-full root board, the first iteration of
`SearchTree.search` expands the root without children. -/
theorem stepS_init_full (b : Board) (p : Int) (m : Nat)
    (hfull : b.all_full = true) (hm : 1 ≤ m) :
    stepS p m (initS b p) = .ok (.inr (loopStateS b p)) := by
  have hm0 : ¬ m ≤ 0 := by omega
  simp only [stepS, getNextS, initS, getNextGo, loopStateS, isLeafS, expandS,
    allChildrenPruned, allChildrenDone, aset, sinsert, INIT_NODE]
  simp only [List.length_singleton, List.getLast?_singleton]
  simp [hm0, expandGoS_all_full p 0 0 b _ _ (all_full_every b hfull)]
  exact ⟨rfl, rfl⟩

/-- Helper: the looping state of `SearchTree.search` on an all-full root
board reproduces itself exactly on every further iteration. -/
theorem stepS_loop_full (b : Board) (p : Int) (m : Nat)
    (hfull : b.all_full = true) (hm : 1 ≤ m) :
    stepS p m (loopStateS b p) = .ok (.inr (loopStateS b p)) := by
  have hm0 : ¬ m ≤ 0 := by omega
  simp only [stepS, getNextS, initS, getNextGo, loopStateS, isLeafS, expandS,
    allChildrenPruned, allChildrenDone, aset, sinsert, INIT_NODE]
  simp only [List.length_singleton, List.getLast?_singleton]
  simp [hm0, expandGoS_all_full p 0 0 b _ _ (all_full_every b hfull)]
  exact ⟨rfl, rfl⟩

/-- Helper: on an all-full root board, the first iteration of `search_tree`
expands the root without children. -/
theorem stepG_init_full (b : Board) (p : Int) (m : Nat)
    (hfull : b.all_full = true) (hm : 1 ≤ m) :
    stepG p m (initG b) = .ok (loopStateG b) := by
  have hm0 : ¬ m ≤ 0 := by omega
  simp only [stepG, initG, loopStateG, aset, sinsert]
  simp [hm0, expandG_all_full p 0 0 b _ _ (all_full_every b hfull)]

/-- Helper: the looping state of `search_tree` on an all-full root board
reproduces itself exactly. -/
theorem stepG_loop_full (b : Board) (p : Int) (m : Nat)
    (hfull : b.all_full = true) (hm : 1 ≤ m) :
    stepG p m (loopStateG b) = .ok (loopStateG b) := by
  have hm0 : ¬ m ≤ 0 := by omega
  simp only [stepG, initG, loopStateG, aset, sinsert]
  simp [hm0, expandG_all_full p 0 0 b _ _ (all_full_every b hfull)]

/-- C2 counterexample: on the completely full 1×1 board neither search fails
— there is no `NoLegalMove` (or any other) failure: both searches step from
their initial state into a state that reproduces itself forever (the root is
re-expanded with zero children on every iteration). -/
theorem c2_counterexample :
    stepS 1 5 (initS fullB11 1) = .ok (.inr (loopStateS fullB11 1)) ∧
    stepS 1 5 (loopStateS fullB11 1) = .ok (.inr (loopStateS fullB11 1)) ∧
    stepG 1 4 (initG fullB11) = .ok (loopStateG fullB11) ∧
    stepG 1 4 (loopStateG fullB11) = .ok (loopStateG fullB11) :=
  ⟨rfl, rfl, rfl, rfl⟩

/-- C2 (amended): on every completely full board, for every ply limit ≥ 1 and
every iteration budget, both `SearchTree.search` and `search_tree` are still
looping — they neither fail (no `NoLegalMove` check exists in the code) nor
return. -/
theorem c2_full_board_loops (b : Board) (p : Int) (m f : Nat)
    (hfull : b.all_full = true) (hm : 1 ≤ m) :
    runS p m f (initS b p) = .ok none ∧ runG p m f (initG b) = .ok none := by
  have hS2 := stepS_loop_full b p m hfull hm
  have hG2 := stepG_loop_full b p m hfull hm
  have hSl : ∀ g, runS p m g (loopStateS b p) = .ok none := by
    intro g
    induction g with
    | zero => rfl
    | succ g ih => rw [runS, hS2]; exact ih
  have hGl : ∀ g, runG p m g (loopStateG b) = .ok none := by
    intro g
    induction g with
    | zero => rfl
    | succ g ih =>
      rw [runG]
      have hc : (loopStateG b).evaluated.contains 0 = false := rfl
      rw [hc]
      simp only [Bool.false_eq_true, if_false, hG2]
      exact ih
  constructor
  · cases f with
    | zero => rfl
    | succ f => rw [runS, stepS_init_full b p m hfull hm]; exact hSl f
  · cases f with
    | zero => rfl
    | succ f =>
      rw [runG]
      have hc : (initG b).evaluated.contains 0 = false := rfl
      rw [hc]
      simp only [Bool.false_eq_true, if_false, stepG_init_full b p m hfull hm]
      exact hGl f

/-- Witness for C2 at the concrete full 1×1 board, the shipped ply limit 5
and a concrete budget. -/
theorem c2_full_board_loops_witness :
    runS 1 5 7 (initS fullB11 1) = .ok none ∧
    runG 1 5 7 (initG fullB11) = .ok none :=
  c2_full_board_loops fullB11 1 5 7 (by decide) (by decide)

set_option maxRecDepth 100000

/-- C1: pruning *does* change the returned score.  From the empty 4×2 board
with player `1` and ply limit 3, the alpha-beta engine (`SearchTree.search`)
returns score `3/7` while the plain minimax reference with pruning disabled
(`search_tree`) returns score `1/5` — two different floats (both pick
column 2). -/
theorem c1_pruning_changes_score :
    runS 1 3 170 (initS (Board.new 4 2) 1) = .ok (some (Score.frac 3 7, 2)) ∧
    runG 1 3 340 (initG (Board.new 4 2)) = .ok (some (Score.frac 1 5, 2)) ∧
    Score.seq (Score.frac 3 7) (Score.frac 1 5) = false :=
  ⟨rfl, rfl, rfl⟩

/-- C3: the root's recorded best move is *not* updated only on strict
improvements.  On the empty 2×1 board at ply limit 1 both root children
evaluate to `1`; only column 1 (resolved first — children are popped in
descending column order) ever strictly improves the root's score, yet the
search returns column 0, because `update_min` reports an overwrite even when
none happened and the best move is overwritten on every resolved root
child. -/
theorem c3_best_move_overwritten_on_tie :
    runS 1 1 8 (initS (Board.new 2 1) 1) = .ok (some (Score.frac 1 1, 0)) :=
  rfl

/-- Helper: the three-step walk of `stones_in_direction` as a function of its
three step tests. -/
theorem stonesGo_three (b : Board) (p : Int) (d : Int × Int) (y x : Int) :
    stonesGo b p d y x 3 =
      cnt3 (stepOK b p (y + d.1) (x + d.2))
        (stepOK b p (y + 2 * d.1) (x + 2 * d.2))
        (stepOK b p (y + 3 * d.1) (x + 3 * d.2)) := by
  have h2y : y + d.1 + d.1 = y + 2 * d.1 := by ring
  have h2x : x + d.2 + d.2 = x + 2 * d.2 := by ring
  have h3y : y + 2 * d.1 + d.1 = y + 3 * d.1 := by ring
  have h3x : x + 2 * d.2 + d.2 = x + 3 * d.2 := by ring
  have e1 : stonesGo b p d y x 3 =
      if stepOK b p (y + d.1) (x + d.2) then
        1 + stonesGo b p d (y + d.1) (x + d.2) 2
      else 0 := rfl
  have e2 : stonesGo b p d (y + d.1) (x + d.2) 2 =
      if stepOK b p (y + d.1 + d.1) (x + d.2 + d.2) then
        1 + stonesGo b p d (y + d.1 + d.1) (x + d.2 + d.2) 1
      else 0 := rfl
  have e3 : stonesGo b p d (y + d.1 + d.1) (x + d.2 + d.2) 1 =
      if stepOK b p (y + d.1 + d.1 + d.1) (x + d.2 + d.2 + d.2) then
        1 + stonesGo b p d (y + d.1 + d.1 + d.1) (x + d.2 + d.2 + d.2) 0
      else 0 := rfl
  rw [e1, e2, e3]
  rw [h2y, h2x, h3y, h3x]
  cases hb1 : stepOK b p (y + d.1) (x + d.2) <;>
    cases hb2 : stepOK b p (y + 2 * d.1) (x + 2 * d.2) <;>
    cases hb3 : stepOK b p (y + 3 * d.1) (x + 3 * d.2) <;>
    simp [cnt3, stonesGo]

/-- Helper: a single-direction run check in terms of the walk (used for the
vertical axis). -/
theorem hasRun_char (b : Board) (p : Int) (y x : Int) (d : Int × Int) :
    hasRun b p y x d =
      (stepOK b p y x && decide (3 ≤ stonesGo b p d y x 3)) := by
  rw [hasRun, stonesGo_three]
  cases h0 : stepOK b p y x <;>
    cases hb1 : stepOK b p (y + d.1) (x + d.2) <;>
    cases hb2 : stepOK b p (y + 2 * d.1) (x + 2 * d.2) <;>
    cases hb3 : stepOK b p (y + 3 * d.1) (x + 3 * d.2) <;>
    simp [cnt3]

/-- Helper: a 4-in-a-row through a position along a mirrored axis exists iff
the position itself checks out and the two directional walks add up to at
least 3. -/
theorem fourThrough_char (b : Board) (p : Int) (y x : Int) (d : Int × Int) :
    fourThrough b p y x d =
      (stepOK b p y x &&
        decide (3 ≤ stonesGo b p d y x 3 + stonesGo b p (dneg d) y x 3)) := by
  have n1y : y + (-d.1) = y - d.1 := by ring
  have n1x : x + (-d.2) = x - d.2 := by ring
  have n2y : y + 2 * (-d.1) = y - 2 * d.1 := by ring
  have n2x : x + 2 * (-d.2) = x - 2 * d.2 := by ring
  have n3y : y + 3 * (-d.1) = y - 3 * d.1 := by ring
  have n3x : x + 3 * (-d.2) = x - 3 * d.2 := by ring
  have w1ya : y - d.1 + d.1 = y := by ring
  have w1xa : x - d.2 + d.2 = x := by ring
  have w1yb : y - d.1 + 2 * d.1 = y + d.1 := by ring
  have w1xb : x - d.2 + 2 * d.2 = x + d.2 := by ring
  have w1yc : y - d.1 + 3 * d.1 = y + 2 * d.1 := by ring
  have w1xc : x - d.2 + 3 * d.2 = x + 2 * d.2 := by ring
  have w2ya : y - 2 * d.1 + d.1 = y - d.1 := by ring
  have w2xa : x - 2 * d.2 + d.2 = x - d.2 := by ring
  have w2yb : y - 2 * d.1 + 2 * d.1 = y := by ring
  have w2xb : x - 2 * d.2 + 2 * d.2 = x := by ring
  have w2yc : y - 2 * d.1 + 3 * d.1 = y + d.1 := by ring
  have w2xc : x - 2 * d.2 + 3 * d.2 = x + d.2 := by ring
  have w3ya : y - 3 * d.1 + d.1 = y - 2 * d.1 := by ring
  have w3xa : x - 3 * d.2 + d.2 = x - 2 * d.2 := by ring
  have w3yb : y - 3 * d.1 + 2 * d.1 = y - d.1 := by ring
  have w3xb : x - 3 * d.2 + 2 * d.2 = x - d.2 := by ring
  have w3yc : y - 3 * d.1 + 3 * d.1 = y := by ring
  have w3xc : x - 3 * d.2 + 3 * d.2 = x := by ring
  rw [fourThrough, hasRun, hasRun, hasRun, hasRun,
    stonesGo_three b p d y x, stonesGo_three b p (dneg d) y x]
  simp only [dneg]
  simp only [n1y, n1x, n2y, n2x, n3y, n3x, w1ya, w1xa, w1yb, w1xb, w1yc,
    w1xc, w2ya, w2xa, w2yb, w2xb, w2yc, w2xc, w3ya, w3xa, w3yb, w3xb, w3yc,
    w3xc]
  cases h0 : stepOK b p y x <;>
    cases hb1 : stepOK b p (y + d.1) (x + d.2) <;>
    cases hb2 : stepOK b p (y + 2 * d.1) (x + 2 * d.2) <;>
    cases hb3 : stepOK b p (y + 3 * d.1) (x + 3 * d.2) <;>
    cases hc1 : stepOK b p (y - d.1) (x - d.2) <;>
    cases hc2 : stepOK b p (y - 2 * d.1) (x - 2 * d.2) <;>
    cases hc3 : stepOK b p (y - 3 * d.1) (x - 3 * d.2) <;>
    simp [cnt3]

/-- C5 (amended): for every board, player and in-bounds position,
`winning_on` is true iff at least 4 consecutive same-player stones include
the position along the horizontal or either diagonal axis, or a *downward*
vertical 4-run starts at the position (upward-extending vertical runs are
not scanned: only the south direction is checked on the vertical axis). -/
theorem c5_winning_on_iff (b : Board) (p : Int) (y x : Int)
    (hin : b.within_bounds y x = true) :
    winning_on b p y x = true ↔ amendedWin b p y x = true := by
  by_cases hcell : b.cellAt y x = p
  · have ha0 : stepOK b p y x = true := by simp [stepOK, hin, hcell]
    rw [winning_on]
    rw [if_neg (by simp [hcell])]
    rw [amendedWin, fourThrough_char, fourThrough_char, fourThrough_char,
      hasRun_char, ha0]
    simp only [max_stones_into, stones_in_direction, N_CONNECT,
      show (4 : Nat) - 1 = 3 from rfl, Bool.true_and, Bool.or_eq_true,
      decide_eq_true_eq, beq_iff_eq]
    omega
  · have ha0 : stepOK b p y x = false := by simp [stepOK, hcell]
    rw [winning_on]
    rw [if_pos (by simp [hcell])]
    rw [amendedWin, fourThrough_char, fourThrough_char, fourThrough_char,
      hasRun_char, ha0]
    simp

/-- C5 counterexample: a column of four `player` stones seen from its
*bottom* stone is a 4-in-a-row through that position in the claim's sense,
yet `winning_on` returns `false` there (the vertical axis is only scanned
downward). -/
theorem c5_counterexample :
    winning_on colB14 1 0 0 = false ∧ claimWin colB14 1 0 0 = true := by
  constructor
  · rfl
  · rfl

/-- Witness for C5 at the top stone of the same column, where the downward
run is found. -/
theorem c5_winning_on_iff_witness :
    colB14.within_bounds 3 0 = true ∧
    (winning_on colB14 1 3 0 = true ↔ amendedWin colB14 1 3 0 = true) :=
  ⟨by decide, c5_winning_on_iff colB14 1 3 0 (by decide)⟩
